import Mathlib

/-!
Shallow embedding of the brokerX order-lifecycle core, translated from the
Rust sources:

* `src/domain/src/user.rs`        — user ledger (balance, holdings)
* `src/domain/src/order.rs`       — order record and status variants
* `src/domain/src/pre_trade.rs`   — stateless pre-trade validator
* `src/domain/src/order_processing.rs` — worker step and startup recovery
* `src/domain/src/core.rs`        — broker facade `create_order`
* `src/app/src/api/order/mod.rs`  — cancellation entry point `delete_order`

Conventions of the embedding: `f64` money amounts and prices are embedded as
exact rationals (`Rat`); `u64` quantities as `Nat`; `i64` deltas as `Int`;
`Uuid` identifiers as `Nat`; timestamps as `Nat` values passed in explicitly
where the source calls `now()`.  `HashMap`s and repository tables are
association lists with lookup-by-key semantics.  Methods that mutate
`&mut self` and return `Result<(), E>` are embedded as functions returning
the final state paired with the result.  Database transport errors are not
modelled: repository reads always succeed, a missing row is `none`.
-/

/-- Lookup in an association-list table, mirroring `Repository::get` /
`HashMap::get`: the value at the first entry whose key matches. -/
def lookupStore {α β : Type} [DecidableEq α] (s : List (α × β)) (k : α) : Option β :=
  (s.find? (fun p => decide (p.1 = k))).map Prod.snd

/-- Remove every entry with the given key, mirroring `HashMap::remove`. -/
def eraseStore {α β : Type} [DecidableEq α] (s : List (α × β)) (k : α) : List (α × β) :=
  s.filter (fun p => decide (p.1 ≠ k))

/-- Write the value at a key, mirroring `Repository::insert` / `update` and
`HashMap::insert`: afterwards the key maps to exactly this value. -/
def updateStore {α β : Type} [DecidableEq α] (s : List (α × β)) (k : α) (v : β) :
    List (α × β) :=
  (k, v) :: eraseStore s k

theorem lookupStore_updateStore_self {α β : Type} [DecidableEq α]
    (s : List (α × β)) (k : α) (v : β) :
    lookupStore (updateStore s k v) k = some v := by
  simp [lookupStore, updateStore, List.find?]

theorem lookupStore_eraseStore_self {α β : Type} [DecidableEq α]
    (s : List (α × β)) (k : α) :
    lookupStore (eraseStore s k) k = none := by
  have h : ∀ p ∈ eraseStore s k, ¬ (decide (p.1 = k) = true) := by
    intro p hp
    have h2 := List.of_mem_filter hp
    simp_all
  unfold lookupStore
  rw [List.find?_eq_none.mpr h]
  rfl

/-- `Holding` from `src/domain/src/portfolio.rs` (u64 quantity, f64 cost). -/
structure Holding where
  symbol : String
  quantity : Nat
  average_cost : Rat
  last_updated : Nat
  deriving DecidableEq, Repr

/-- `User` from `src/domain/src/user.rs`. -/
structure User where
  id : Option Nat
  email : String
  password_hash : String
  firstname : String
  surname : String
  balance : Rat
  is_verified : Bool
  created_at : Nat
  holdings : List (String × Holding)
  deriving DecidableEq, Repr

/-- `NotEnoughMoneyError` from `src/domain/src/user.rs`. -/
inductive NotEnoughMoneyError
  | mk
  deriving DecidableEq, Repr

/-- `AuthError` from `src/domain/src/user.rs` (variants the embedding uses). -/
inductive AuthError
  | UserNotFound
  | InvalidPassword
  | UserAlreadyExists
  | WeakPassword
  | NotVerified (user_id : Nat)
  | NotEnoughMoneyError
  deriving DecidableEq, Repr

/-- `User::hash_password`: the demonstration hash from the source. -/
def hash_password (password : String) : String :=
  "hash_" ++ password

/-- `User::new` from `src/domain/src/user.rs` lines 69-91: rejects passwords
shorter than 6 bytes, otherwise builds an unverified user with empty holdings
and the given initial balance. -/
def User.new (email password firstname surname : String) (initial_balance : Rat)
    (now : Nat) : Except AuthError User :=
  if password.length < 6 then
    Except.error AuthError.WeakPassword
  else
    Except.ok
      { id := none
        email := email
        password_hash := hash_password password
        firstname := firstname
        surname := surname
        balance := initial_balance
        is_verified := false
        created_at := now
        holdings := [] }

/-- `User::deposit` (line 111-113): unconditionally adds to the balance. -/
def User.deposit (u : User) (amount : Rat) : User :=
  { u with balance := u.balance + amount }

/-- `User::withdraw` (lines 116-122), embedded in state-passing style: the
returned pair is the user after the call (`&mut self`) and the `Result`. -/
def User.withdrawRun (u : User) (amount : Rat) :
    User × Except NotEnoughMoneyError Unit :=
  if u.balance < amount then
    (u, Except.error NotEnoughMoneyError.mk)
  else
    ({ u with balance := u.balance - amount }, Except.ok ())

/-- `User::verify_email` (lines 131-133). -/
def User.verify_email (u : User) : User :=
  { u with is_verified := true }

/-- `User::update_holding` from `src/domain/src/user.rs` lines 136-175,
translated branch by branch.  `new_quantity as u64` becomes `Int.toNat`
(applied only when the value is positive, as in the source). -/
def User.update_holding (u : User) (symbol : String) (quantity_change : Int)
    (price : Rat) (now : Nat) : User :=
  match lookupStore u.holdings symbol with
  | some holding =>
      let old_quantity : Int := (holding.quantity : Int)
      let new_quantity : Int := old_quantity + quantity_change
      if new_quantity ≤ 0 then
        { u with holdings := eraseStore u.holdings symbol }
      else
        let old_total_cost : Rat := holding.average_cost * (holding.quantity : Rat)
        let new_cost : Rat :=
          if 0 < quantity_change then price * (quantity_change : Rat) else 0
        let updated : Holding :=
          { holding with
            quantity := new_quantity.toNat
            average_cost :=
              if old_quantity < new_quantity then
                (old_total_cost + new_cost) / (new_quantity.toNat : Rat)
              else
                holding.average_cost
            last_updated := now }
        { u with holdings := updateStore u.holdings symbol updated }
  | none =>
      if 0 < quantity_change then
        let created : Holding :=
          { symbol := symbol
            quantity := quantity_change.toNat
            average_cost := price
            last_updated := now }
        { u with holdings := updateStore u.holdings symbol created }
      else
        u

/-- `OrderStatus` from `src/domain/src/order.rs` (dates embedded as `Nat`). -/
inductive OrderStatus
  | Cancelled
  | Expired (date : Nat)
  | Filled (date : Nat)
  | Pending
  | PendingCancel
  | Queued
  | Rejected (date : Nat)
  deriving DecidableEq, Repr

/-- The four terminal statuses of the order state machine. -/
def OrderStatus.isTerminal : OrderStatus → Bool
  | .Cancelled => true
  | .Expired _ => true
  | .Filled _ => true
  | .Rejected _ => true
  | _ => false

/-- The serde external tag under which a status variant is serialized: the
top-level JSON string that `find_all_by_field("status", …)` matches on. -/
def OrderStatus.tag : OrderStatus → String
  | .Cancelled => "Cancelled"
  | .Expired _ => "Expired"
  | .Filled _ => "Filled"
  | .Pending => "Pending"
  | .PendingCancel => "PendingCancel"
  | .Queued => "Queued"
  | .Rejected _ => "Rejected"

/-- `OrderSide` from `src/domain/src/order.rs`. -/
inductive OrderSide
  | Buy
  | Sell
  deriving DecidableEq, Repr

/-- `OrderType` from `src/domain/src/order.rs` (limit price as `Rat`). -/
inductive OrderType
  | Market
  | Limit (price : Rat)
  deriving DecidableEq, Repr

/-- `Order` from `src/domain/src/order.rs`. -/
structure Order where
  client_id : Nat
  date : Nat
  symbol : String
  quantity : Nat
  status : OrderStatus
  order_type : OrderType
  order_side : OrderSide
  deriving DecidableEq, Repr

/-- `PreTradeError` from `src/domain/src/pre_trade.rs` (the `DbError`
pass-through variant is not modelled: repository calls do not fail in this
embedding). -/
inductive PreTradeError
  | InsufficientBuyingPower (required available : Rat)
  | InvalidPrice (reason : String)
  | ShortSellNotAllowed
  | ExceedsPositionLimit (limit requested : Nat)
  | ExceedsNotionalLimit (limit requested : Rat)
  | InvalidQuantity
  | InactiveInstrument (symbol : String)
  | InvalidTickSize (symbol : String) (price tick_size : Rat)
  deriving DecidableEq, Repr

/-- `PreTradeConfig` from `src/domain/src/pre_trade.rs`. -/
structure PreTradeConfig where
  max_position_size : Nat
  max_notional_per_order : Rat
  active_instruments : List String
  tick_sizes : List (String × Rat)
  price_bands : List (String × (Rat × Rat))
  deriving DecidableEq, Repr

/-- `PreTradeConfig::default` from `src/domain/src/pre_trade.rs`. -/
def default_config : PreTradeConfig where
  max_position_size := 10000
  max_notional_per_order := 100000
  active_instruments := ["AAPL", "GOOGL", "MSFT", "TSLA"]
  tick_sizes := [("AAPL", 1 / 100), ("GOOGL", 1 / 100), ("MSFT", 1 / 100), ("TSLA", 1 / 100)]
  price_bands :=
    [("AAPL", (1, 1000)), ("GOOGL", (1, 5000)), ("MSFT", (1, 1000)), ("TSLA", (1, 2000))]

/-- Rust `f64::EPSILON`, the machine epsilon `2⁻⁵²`, as an exact rational. -/
def f64_EPSILON : Rat := 1 / 2 ^ 52

/-- Rust's float remainder `x % 1.0` (truncation-based), in exact arithmetic:
the fractional part taken toward zero. -/
def fmodOne (x : Rat) : Rat :=
  if 0 ≤ x then x - (⌊x⌋ : Rat) else x - (⌈x⌉ : Rat)

/-- The reason string built for a band violation in
`PreTradeValidator::validate_limit_order_price`. -/
def bandReason (price min_price max_price : Rat) : String :=
  "Price " ++ toString price ++ " outside allowed band [" ++ toString min_price
    ++ ", " ++ toString max_price ++ "]"

/-- `PreTradeValidator::validate_limit_order_price` from
`src/domain/src/pre_trade.rs` lines 183-232: band check, tick-alignment
check, notional cap, then buying power for buys.  Float arithmetic is
embedded exactly over `Rat`. -/
def validate_limit_order_price (cfg : PreTradeConfig) (symbol : String) (price : Rat)
    (quantity : Nat) (order_side : OrderSide) (user_balance : Rat) :
    Except PreTradeError Unit := do
  match lookupStore cfg.price_bands symbol with
  | some band =>
      if price < band.1 ∨ band.2 < price then
        throw (PreTradeError.InvalidPrice (bandReason price band.1 band.2))
  | none => pure ()
  match lookupStore cfg.tick_sizes symbol with
  | some tick_size =>
      if f64_EPSILON < |fmodOne (price / tick_size)| then
        throw (PreTradeError.InvalidTickSize symbol price tick_size)
  | none => pure ()
  let notional : Rat := price * (quantity : Rat)
  if cfg.max_notional_per_order < notional then
    throw (PreTradeError.ExceedsNotionalLimit cfg.max_notional_per_order notional)
  if order_side = OrderSide.Buy ∧ user_balance < notional then
    throw (PreTradeError.InsufficientBuyingPower notional user_balance)

/-- `PreTradeValidator::get_estimated_price` from `src/domain/src/pre_trade.rs`. -/
def get_estimated_price (symbol : String) : Rat :=
  if symbol = "AAPL" then 150
  else if symbol = "GOOGL" then 2800
  else if symbol = "MSFT" then 420
  else if symbol = "TSLA" then 245
  else 100

/-- `PreTradeValidator::validate_market_order` from
`src/domain/src/pre_trade.rs` lines 234-260. -/
def validate_market_order (cfg : PreTradeConfig) (symbol : String) (quantity : Nat)
    (order_side : OrderSide) (user_balance : Rat) : Except PreTradeError Unit := do
  let estimated_notional : Rat := get_estimated_price symbol * (quantity : Rat)
  if cfg.max_notional_per_order < estimated_notional then
    throw (PreTradeError.ExceedsNotionalLimit cfg.max_notional_per_order estimated_notional)
  if order_side = OrderSide.Buy ∧ user_balance < estimated_notional then
    throw (PreTradeError.InsufficientBuyingPower estimated_notional user_balance)

/-- `PreTradeValidator::validate_order` from `src/domain/src/pre_trade.rs`
lines 142-181: quantity, instrument and position checks, then the
limit-price checks for `Limit` orders and the estimated-price checks for
`Market` orders (the source's two mutually exclusive conditionals on the
order type are rendered as one match). -/
def validate_order (cfg : PreTradeConfig) (order_side : OrderSide)
    (order_type : OrderType) (symbol : String) (quantity : Nat)
    (user_balance : Rat) : Except PreTradeError Unit := do
  if quantity = 0 then
    throw PreTradeError.InvalidQuantity
  if ¬ cfg.active_instruments.contains symbol then
    throw (PreTradeError.InactiveInstrument symbol)
  if cfg.max_position_size < quantity then
    throw (PreTradeError.ExceedsPositionLimit cfg.max_position_size quantity)
  match order_type with
  | OrderType.Limit price =>
      validate_limit_order_price cfg symbol price quantity order_side user_balance
  | OrderType.Market =>
      validate_market_order cfg symbol quantity order_side user_balance

/-- `SharedState` from `src/domain/src/order_processing.rs`: the guarded
structure holding both repository tables, the work queue and the run flag. -/
structure SharedSt where
  orders : List (Nat × Order)
  users : List (Nat × User)
  order_queue : List Nat
  is_running : Bool
  deriving DecidableEq, Repr

/-- `UserRepoExt::withdraw_from_user` (`src/domain/src/user.rs` lines
341-353) restricted to the modelled failure modes: read the user (missing →
`UserNotFound`), run `User::withdraw`, write back on success.  The returned
flag is `true` exactly when the whole call succeeded. -/
def withdraw_from_user (users : List (Nat × User)) (user_id : Nat) (amount : Rat) :
    List (Nat × User) × Bool :=
  match lookupStore users user_id with
  | none => (users, false)
  | some user =>
      match user.withdrawRun amount with
      | (_, Except.error _) => (users, false)
      | (user2, Except.ok _) => (updateStore users user_id user2, true)

/-- `UserRepoExt::deposit_to_user` (`src/domain/src/user.rs` lines 329-340):
read the user (missing → `UserNotFound`), deposit, write back. -/
def deposit_to_user (users : List (Nat × User)) (user_id : Nat) (amount : Rat) :
    List (Nat × User) × Bool :=
  match lookupStore users user_id with
  | none => (users, false)
  | some user => (updateStore users user_id (user.deposit amount), true)

/-- `ProcessingPool::update_portfolio_for_filled_order_async`
(`src/domain/src/order_processing.rs` lines 378-425): re-read the user,
apply `update_holding` with a signed quantity given by the side, write back;
a missing user is only logged. -/
def update_portfolio_for_filled_order (users : List (Nat × User)) (order : Order)
    (execution_price : Rat) (now : Nat) : List (Nat × User) :=
  let quantity_change : Int :=
    match order.order_side with
    | OrderSide.Buy => (order.quantity : Int)
    | OrderSide.Sell => -(order.quantity : Int)
  match lookupStore users order.client_id with
  | some user =>
      updateStore users order.client_id
        (user.update_holding order.symbol quantity_change execution_price now)
  | none => users

/-- The hard-coded execution price used by the fill branch of
`ProcessingPool::process_order`. -/
def execution_price : Rat := 100

/-- `ProcessingPool::process_order` (`src/domain/src/order_processing.rs`
lines 227-334) as a pure step: `r` is the worker's random `u32` draw and
`now` the current time.  A missing order id is logged and dropped; otherwise
the status is dispatched on and the (possibly unchanged) order is written
back at the end of the step, exactly as in the source. -/
def process_order (st : SharedSt) (order_id : Nat) (r : Nat) (now : Nat) : SharedSt :=
  match lookupStore st.orders order_id with
  | none => st
  | some order =>
      match order.status with
      | OrderStatus.Queued =>
          { st with
            orders := updateStore st.orders order_id { order with status := OrderStatus.Pending }
            order_queue := st.order_queue ++ [order_id] }
      | OrderStatus.Pending =>
          if r % 4 = 0 then
            let amount : Rat := execution_price * (order.quantity : Rat)
            let funds_result :=
              match order.order_side with
              | OrderSide.Buy => withdraw_from_user st.users order.client_id amount
              | OrderSide.Sell => deposit_to_user st.users order.client_id amount
            if funds_result.2 then
              { st with
                users := update_portfolio_for_filled_order funds_result.1 order
                  execution_price now
                orders := updateStore st.orders order_id
                  { order with status := OrderStatus.Filled now } }
            else
              { st with
                users := funds_result.1
                orders := updateStore st.orders order_id
                  { order with status := OrderStatus.Rejected now } }
          else
            { st with
              orders := updateStore st.orders order_id order
              order_queue := st.order_queue ++ [order_id] }
      | OrderStatus.PendingCancel =>
          { st with
            orders := updateStore st.orders order_id
              { order with status := OrderStatus.Cancelled } }
      | _ =>
          { st with orders := updateStore st.orders order_id order }

/-- The recovery query of `ProcessingPool::new`
(`src/domain/src/order_processing.rs` lines 49-70): the rows returned by
`find_all_by_field("status", "Pending")`, matching on the serialized status
tag. -/
def find_all_by_status (orders : List (Nat × Order)) (value : String) :
    List (Nat × Order) :=
  orders.filter (fun p => p.2.status.tag == value)

/-- The work queue as populated at pool construction, before any worker is
released: one push per row returned by the recovery query. -/
def recover_queue (orders : List (Nat × Order)) : List Nat :=
  (find_all_by_status orders "Pending").map Prod.fst

/-- The balance `BrokerX::create_order` reads for pre-trade checks
(`src/domain/src/core.rs` lines 100-108): a missing user counts as 0. -/
def stored_balance (st : SharedSt) (client_id : Nat) : Rat :=
  match lookupStore st.users client_id with
  | some user => user.balance
  | none => 0

/-- `BrokerX::create_order` from `src/domain/src/core.rs` lines 92-147 in
state-passing style: read the balance, validate, and on success insert the
`Queued` order under a fresh id and enqueue it (`submit_order` also raises
the run flag).  On a validation failure the state is returned untouched
together with the typed error. -/
def create_order (cfg : PreTradeConfig) (st : SharedSt) (client_id : Nat)
    (symbol : String) (quantity : Nat) (order_side : OrderSide)
    (order_type : OrderType) (fresh_id : Nat) (now : Nat) :
    SharedSt × Except PreTradeError Nat :=
  match validate_order cfg order_side order_type symbol quantity
      (stored_balance st client_id) with
  | Except.error e => (st, Except.error e)
  | Except.ok _ =>
      let order : Order :=
        { client_id := client_id
          date := now
          symbol := symbol
          quantity := quantity
          status := OrderStatus.Queued
          order_type := order_type
          order_side := order_side }
      ({ st with
          orders := updateStore st.orders fresh_id order
          order_queue := st.order_queue ++ [fresh_id]
          is_running := true },
        Except.ok fresh_id)

/-- The outcome of the `DELETE /api/order/{id}` handler, keeping only what
the handler decides (HTTP status and returned order). -/
inductive DeleteOutcome
  | cancelled (order : Order)
  | cantCancel
  | notFound
  deriving DecidableEq, Repr

/-- `delete_order` from `src/app/src/api/order/mod.rs` lines 190-220: a
terminal order yields 400 without mutation; any other status is overwritten
to `Cancelled` and written back; the work queue is never touched. -/
def delete_order (st : SharedSt) (order_id : Nat) : SharedSt × DeleteOutcome :=
  match lookupStore st.orders order_id with
  | none => (st, DeleteOutcome.notFound)
  | some order =>
      match order.status with
      | OrderStatus.Filled _ | OrderStatus.Cancelled
      | OrderStatus.Expired _ | OrderStatus.Rejected _ =>
          (st, DeleteOutcome.cantCancel)
      | _ =>
          let order2 := { order with status := OrderStatus.Cancelled }
          ({ st with orders := updateStore st.orders order_id order2 },
            DeleteOutcome.cancelled order2)

/-- Modelled from the spec's words (§4.4): the single first-failure cascade
`validate_order(side, type, symbol, quantity, user_balance)` — quantity,
instrument, position limit, then for `Limit` orders band, tick, notional and
buying power in that order, and for `Market` orders the estimated-price
notional and buying-power checks.  Written flat, to be compared with the
source-translated `validate_order`. -/
def validate_order_specification (cfg : PreTradeConfig) (order_side : OrderSide)
    (order_type : OrderType) (symbol : String) (quantity : Nat)
    (user_balance : Rat) : Except PreTradeError Unit := do
  if quantity = 0 then
    throw PreTradeError.InvalidQuantity
  if ¬ cfg.active_instruments.contains symbol then
    throw (PreTradeError.InactiveInstrument symbol)
  if cfg.max_position_size < quantity then
    throw (PreTradeError.ExceedsPositionLimit cfg.max_position_size quantity)
  match order_type with
  | OrderType.Limit price => do
      match lookupStore cfg.price_bands symbol with
      | some band =>
          if price < band.1 ∨ band.2 < price then
            throw (PreTradeError.InvalidPrice (bandReason price band.1 band.2))
      | none => pure ()
      match lookupStore cfg.tick_sizes symbol with
      | some tick_size =>
          if f64_EPSILON < |fmodOne (price / tick_size)| then
            throw (PreTradeError.InvalidTickSize symbol price tick_size)
      | none => pure ()
      let notional : Rat := price * (quantity : Rat)
      if cfg.max_notional_per_order < notional then
        throw (PreTradeError.ExceedsNotionalLimit cfg.max_notional_per_order notional)
      if order_side = OrderSide.Buy ∧ user_balance < notional then
        throw (PreTradeError.InsufficientBuyingPower notional user_balance)
  | OrderType.Market => do
      let estimated_notional : Rat := get_estimated_price symbol * (quantity : Rat)
      if cfg.max_notional_per_order < estimated_notional then
        throw (PreTradeError.ExceedsNotionalLimit cfg.max_notional_per_order
          estimated_notional)
      if order_side = OrderSide.Buy ∧ user_balance < estimated_notional then
        throw (PreTradeError.InsufficientBuyingPower estimated_notional user_balance)

/-- The ledger operations a user record is mutated by
(`src/domain/src/user.rs`), as actions for reasoning about sequences. -/
inductive UserOp
  | deposit (amount : Rat)
  | withdraw (amount : Rat)
  | verifyEmail
  | updateHolding (symbol : String) (quantity_change : Int) (price : Rat) (now : Nat)

/-- Apply one ledger operation with the source's `&mut self` semantics: a
failing `withdraw` leaves the user unchanged. -/
def applyOp (u : User) : UserOp → User
  | UserOp.deposit amount => u.deposit amount
  | UserOp.withdraw amount => (u.withdrawRun amount).1
  | UserOp.verifyEmail => u.verify_email
  | UserOp.updateHolding s qc price now => u.update_holding s qc price now

/-- A sequence of ledger operations, applied left to right. -/
def runOps (u : User) (ops : List UserOp) : User :=
  ops.foldl applyOp u

/-- Every holding present in the map has quantity at least 1. -/
def HoldingsInv (u : User) : Prop :=
  ∀ p ∈ u.holdings, 1 ≤ p.2.quantity

/-- The ledger invariant of spec §8: non-negative balance and no zero-share
holding. -/
def UserInv (u : User) : Prop :=
  0 ≤ u.balance ∧ HoldingsInv u

/-- The caller-enforced precondition of `deposit` (spec §4.2): the amount is
non-negative. -/
def depositNonneg : UserOp → Prop
  | UserOp.deposit amount => 0 ≤ amount
  | _ => True

theorem mem_of_mem_eraseStore {α β : Type} [DecidableEq α] {s : List (α × β)}
    {k : α} {p : α × β} (hp : p ∈ eraseStore s k) : p ∈ s :=
  (List.mem_filter.mp hp).1

theorem mem_updateStore {α β : Type} [DecidableEq α] {s : List (α × β)}
    {k : α} {v : β} {p : α × β} (hp : p ∈ updateStore s k v) :
    p = (k, v) ∨ p ∈ s := by
  rcases List.mem_cons.mp hp with h | h
  · exact Or.inl h
  · exact Or.inr (mem_of_mem_eraseStore h)

theorem update_holding_balance (u : User) (s : String) (qc : Int) (price : Rat)
    (now : Nat) : (u.update_holding s qc price now).balance = u.balance := by
  unfold User.update_holding
  cases lookupStore u.holdings s <;> dsimp only <;> split <;> rfl

theorem HoldingsInv_update_holding (u : User) (s : String) (qc : Int)
    (price : Rat) (now : Nat) (h : HoldingsInv u) :
    HoldingsInv (u.update_holding s qc price now) := by
  unfold User.update_holding
  cases hl : lookupStore u.holdings s with
  | none =>
      dsimp only
      split
      · intro p hp
        rcases mem_updateStore hp with hp2 | hp2
        · subst hp2
          dsimp only
          omega
        · exact h p hp2
      · exact h
  | some holding =>
      dsimp only
      split
      · intro p hp
        exact h p (mem_of_mem_eraseStore hp)
      · intro p hp
        rcases mem_updateStore hp with hp2 | hp2
        · subst hp2
          dsimp only
          omega
        · exact h p hp2

theorem UserInv_applyOp (u : User) (op : UserOp) (hu : UserInv u)
    (hop : depositNonneg op) : UserInv (applyOp u op) := by
  obtain ⟨hbal, hhold⟩ := hu
  cases op with
  | deposit amount =>
      simp only [depositNonneg] at hop
      refine ⟨?_, ?_⟩
      · simp only [applyOp, User.deposit]
        exact add_nonneg hbal hop
      · simp only [HoldingsInv, applyOp, User.deposit] at *
        exact hhold
  | withdraw amount =>
      by_cases hlt : u.balance < amount
      · simp only [applyOp, User.withdrawRun, if_pos hlt]
        exact ⟨hbal, hhold⟩
      · simp only [applyOp, User.withdrawRun, if_neg hlt]
        refine ⟨sub_nonneg.mpr (not_lt.mp hlt), ?_⟩
        simp only [HoldingsInv] at *
        exact hhold
  | verifyEmail =>
      refine ⟨hbal, ?_⟩
      simp only [HoldingsInv, applyOp, User.verify_email] at *
      exact hhold
  | updateHolding s qc price now =>
      refine ⟨?_, HoldingsInv_update_holding u s qc price now hhold⟩
      show (0 : Rat) ≤ (u.update_holding s qc price now).balance
      rw [update_holding_balance]
      exact hbal

theorem UserInv_runOps (u : User) (ops : List UserOp) (hu : UserInv u)
    (hops : ∀ op ∈ ops, depositNonneg op) : UserInv (runOps u ops) := by
  induction ops generalizing u with
  | nil => exact hu
  | cons op t ih =>
      exact ih (applyOp u op)
        (UserInv_applyOp u op hu (hops op (List.mem_cons_self op t)))
        (fun o ho => hops o (List.mem_cons_of_mem op ho))

/-- A filled (terminal) order used to instantiate the terminal-sink theorem. -/
def wOrderFilled : Order where
  client_id := 7
  date := 0
  symbol := "AAPL"
  quantity := 10
  status := OrderStatus.Filled 3
  order_type := OrderType.Market
  order_side := OrderSide.Buy

/-- A queued (non-terminal) order used by the recovery and cancel claims. -/
def wOrderQueued : Order where
  client_id := 7
  date := 0
  symbol := "AAPL"
  quantity := 10
  status := OrderStatus.Queued
  order_type := OrderType.Market
  order_side := OrderSide.Buy

/-- A shared state holding only the filled order. -/
def wStFilled : SharedSt where
  orders := [(1, wOrderFilled)]
  users := []
  order_queue := []
  is_running := true

/-- A shared state holding only the queued order. -/
def wStQueued : SharedSt where
  orders := [(1, wOrderQueued)]
  users := []
  order_queue := []
  is_running := true

/-- An empty shared state. -/
def wStEmpty : SharedSt where
  orders := []
  users := []
  order_queue := []
  is_running := false

/-- C1: for every order stored under a terminal status (Filled, Cancelled,
Expired or Rejected) and every system state, a worker step
(`process_order`) leaves the stored order — in particular its status —
exactly as it was, whatever random draw and time the step uses. -/
theorem C1_terminal_status_sink (st : SharedSt) (order_id r now : Nat)
    (order : Order) (hlook : lookupStore st.orders order_id = some order)
    (hterm : order.status.isTerminal = true) :
    lookupStore (process_order st order_id r now).orders order_id = some order := by
  obtain ⟨cid, dt, sym, q, status, ot, osd⟩ := order
  unfold process_order
  rw [hlook]
  cases status with
  | Cancelled => exact lookupStore_updateStore_self st.orders order_id _
  | Expired d => exact lookupStore_updateStore_self st.orders order_id _
  | Filled d => exact lookupStore_updateStore_self st.orders order_id _
  | Rejected d => exact lookupStore_updateStore_self st.orders order_id _
  | Pending => simp [OrderStatus.isTerminal] at hterm
  | PendingCancel => simp [OrderStatus.isTerminal] at hterm
  | Queued => simp [OrderStatus.isTerminal] at hterm

/-- Witness for C1: one worker step on a stored `Filled` order (with the
fill draw r = 0) leaves the row untouched. -/
theorem C1_terminal_status_sink_witness :
    lookupStore (process_order wStFilled 1 0 5).orders 1 = some wOrderFilled :=
  C1_terminal_status_sink wStFilled 1 0 5 wOrderFilled rfl rfl

/-- C2: `validate_order` equals the spec's first-failure cascade — quantity,
instrument, position limit, then for Limit orders band, tick, notional and
buying power, and for Market orders the estimated-price notional and
buying-power checks; the first failing check's error is returned, `Ok`
otherwise. -/
theorem C2_validate_order_cascade (cfg : PreTradeConfig) (order_side : OrderSide)
    (order_type : OrderType) (symbol : String) (quantity : Nat)
    (user_balance : Rat) :
    validate_order cfg order_side order_type symbol quantity user_balance
      = validate_order_specification cfg order_side order_type symbol quantity
          user_balance := by
  cases order_type <;> rfl

/-- C3: `withdraw` fails with the insufficient-funds error exactly when
`balance < amount`, leaving the user unchanged in that case, and otherwise
succeeds with the balance decreased by exactly `amount` (and nothing else
changed). -/
theorem C3_withdraw_exact (u : User) (amount : Rat) :
    if u.balance < amount then
      u.withdrawRun amount = (u, Except.error NotEnoughMoneyError.mk)
    else
      u.withdrawRun amount
        = ({ u with balance := u.balance - amount }, Except.ok ()) := by
  by_cases h : u.balance < amount
  · simp only [User.withdrawRun, if_pos h]
  · simp only [User.withdrawRun, if_neg h]

/-- C6: when pre-trade validation fails, `create_order` returns the typed
`PreTradeError` and the whole shared state — order store and work queue
included — is exactly as before the call. -/
theorem C6_reject_leaves_state (cfg : PreTradeConfig) (st : SharedSt)
    (client_id : Nat) (symbol : String) (quantity : Nat)
    (order_side : OrderSide) (order_type : OrderType) (fresh_id now : Nat)
    (e : PreTradeError)
    (hval : validate_order cfg order_side order_type symbol quantity
        (stored_balance st client_id) = Except.error e) :
    create_order cfg st client_id symbol quantity order_side order_type
        fresh_id now
      = (st, Except.error e) := by
  unfold create_order
  rw [hval]

/-- Witness for C6: submitting quantity 0 returns `InvalidQuantity` and the
empty state is returned untouched. -/
theorem C6_reject_leaves_state_witness :
    create_order default_config wStEmpty 7 "AAPL" 0 OrderSide.Buy
        OrderType.Market 1 0
      = (wStEmpty, Except.error PreTradeError.InvalidQuantity) :=
  C6_reject_leaves_state default_config wStEmpty 7 "AAPL" 0 OrderSide.Buy
    OrderType.Market 1 0 PreTradeError.InvalidQuantity rfl

/-- C7 (code evaluated at the failing input): the startup recovery query of
`ProcessingPool::new` matches only the serialized tag "Pending", so a
persisted order in the non-terminal status Queued is not pushed onto the
work queue. -/
theorem C7_recovery_misses_queued :
    recover_queue [(1, wOrderQueued)] = []
      ∧ wOrderQueued.status.isTerminal = false
      ∧ recover_queue [(1, { wOrderQueued with status := OrderStatus.Pending })]
          = [1] := by
  refine ⟨rfl, rfl, rfl⟩

/-- C10: for a symbol absent from the holdings map and a negative quantity
change, `update_holding` is a no-op: the user record — balance and all
holdings — is returned unchanged. -/
theorem C10_negative_delta_absent_noop (u : User) (s : String) (qc : Int)
    (price : Rat) (now : Nat)
    (habs : lookupStore u.holdings s = none) (hneg : qc < 0) :
    u.update_holding s qc price now = u := by
  unfold User.update_holding
  simp only [habs]
  rw [if_neg (by omega : ¬ (0 : Int) < qc)]

/-- A user with an empty holdings map. -/
def wUserEmpty : User where
  id := some 1
  email := "w@x.com"
  password_hash := "hash_secret"
  firstname := "W"
  surname := "X"
  balance := 50
  is_verified := true
  created_at := 0
  holdings := []

/-- Witness for C10: selling 3 shares of a symbol never held changes
nothing. -/
theorem C10_negative_delta_absent_noop_witness :
    wUserEmpty.update_holding "AAPL" (-3) 10 1 = wUserEmpty :=
  C10_negative_delta_absent_noop wUserEmpty "AAPL" (-3) 10 1 rfl (by decide)

/-- C4: for a held symbol with positive quantity, a positive delta sets the
quantity to `old + delta` and the average cost so that
`new_avg · (old_qty + delta) = old_avg · old_qty + price · delta` (exactly,
in the rational embedding of the float arithmetic); a negative delta adds
the delta to the quantity and keeps the average cost, removing the holding
when the resulting quantity is ≤ 0. -/
theorem C4_update_holding_avg_cost (u : User) (s : String) (h : Holding)
    (qc : Int) (price : Rat) (now : Nat)
    (hlook : lookupStore u.holdings s = some h) (hq : 0 < h.quantity) :
    (0 < qc →
      ∃ h2, lookupStore (u.update_holding s qc price now).holdings s = some h2
        ∧ (h2.quantity : Int) = (h.quantity : Int) + qc
        ∧ h2.average_cost * ((h.quantity : Rat) + (qc : Rat))
            = h.average_cost * (h.quantity : Rat) + price * (qc : Rat))
    ∧ (qc < 0 →
        ((h.quantity : Int) + qc ≤ 0 →
          lookupStore (u.update_holding s qc price now).holdings s = none)
        ∧ (0 < (h.quantity : Int) + qc →
          ∃ h2, lookupStore (u.update_holding s qc price now).holdings s = some h2
            ∧ (h2.quantity : Int) = (h.quantity : Int) + qc
            ∧ h2.average_cost = h.average_cost)) := by
  constructor
  · intro hpos
    unfold User.update_holding
    simp only [hlook]
    rw [if_neg (by omega : ¬ ((h.quantity : Int) + qc ≤ 0))]
    rw [if_pos hpos]
    rw [if_pos (by omega : (h.quantity : Int) < (h.quantity : Int) + qc)]
    refine ⟨_, lookupStore_updateStore_self u.holdings s _, ?_, ?_⟩
    · show ((((h.quantity : Int) + qc).toNat : Nat) : Int) = (h.quantity : Int) + qc
      omega
    · show (h.average_cost * (h.quantity : Rat) + price * (qc : Rat))
            / ((((h.quantity : Int) + qc).toNat : Nat) : Rat)
            * ((h.quantity : Rat) + (qc : Rat))
          = h.average_cost * (h.quantity : Rat) + price * (qc : Rat)
      have hcast : ((((h.quantity : Int) + qc).toNat : Nat) : Rat)
          = (h.quantity : Rat) + (qc : Rat) := by
        have h1 : ((((h.quantity : Int) + qc).toNat : Nat) : Int)
            = (h.quantity : Int) + qc := by omega
        exact_mod_cast h1
      rw [hcast]
      have hposS : (0 : Rat) < (h.quantity : Rat) + (qc : Rat) := by
        have h2 : (0 : Int) < (h.quantity : Int) + qc := by omega
        exact_mod_cast h2
      exact div_mul_cancel₀ _ (ne_of_gt hposS)
  · intro hneg
    constructor
    · intro hle
      unfold User.update_holding
      simp only [hlook]
      rw [if_pos hle]
      exact lookupStore_eraseStore_self u.holdings s
    · intro hgt
      unfold User.update_holding
      simp only [hlook]
      rw [if_neg (by omega : ¬ ((h.quantity : Int) + qc ≤ 0))]
      rw [if_neg (by omega : ¬ (0 : Int) < qc)]
      rw [if_neg (by omega : ¬ (h.quantity : Int) < (h.quantity : Int) + qc)]
      refine ⟨_, lookupStore_updateStore_self u.holdings s _, ?_, rfl⟩
      show ((((h.quantity : Int) + qc).toNat : Nat) : Int) = (h.quantity : Int) + qc
      omega

/-- A user holding 10 shares of AAPL at average cost 100. -/
def wUserAapl : User where
  id := some 1
  email := "w@y.com"
  password_hash := "hash_secret"
  firstname := "W"
  surname := "Y"
  balance := 1000
  is_verified := true
  created_at := 0
  holdings := [("AAPL", { symbol := "AAPL", quantity := 10, average_cost := 100, last_updated := 0 })]

/-- The AAPL holding stored in `wUserAapl`. -/
def wHoldingAapl : Holding where
  symbol := "AAPL"
  quantity := 10
  average_cost := 100
  last_updated := 0

/-- Witness for C4: buying 10 more shares at price 200 on a 10-share
position at cost 100 (and the sell clauses at delta = 10, vacuously). -/
theorem C4_update_holding_avg_cost_witness :
    (0 < (10 : Int) →
      ∃ h2, lookupStore (wUserAapl.update_holding "AAPL" 10 200 1).holdings "AAPL" = some h2
        ∧ (h2.quantity : Int) = (wHoldingAapl.quantity : Int) + 10
        ∧ h2.average_cost * ((wHoldingAapl.quantity : Rat) + ((10 : Int) : Rat))
            = wHoldingAapl.average_cost * (wHoldingAapl.quantity : Rat)
              + 200 * ((10 : Int) : Rat))
    ∧ ((10 : Int) < 0 →
        ((wHoldingAapl.quantity : Int) + 10 ≤ 0 →
          lookupStore (wUserAapl.update_holding "AAPL" 10 200 1).holdings "AAPL" = none)
        ∧ (0 < (wHoldingAapl.quantity : Int) + 10 →
          ∃ h2, lookupStore (wUserAapl.update_holding "AAPL" 10 200 1).holdings "AAPL" = some h2
            ∧ (h2.quantity : Int) = (wHoldingAapl.quantity : Int) + 10
            ∧ h2.average_cost = wHoldingAapl.average_cost)) :=
  C4_update_holding_avg_cost wUserAapl "AAPL" wHoldingAapl 10 200 1 rfl (by decide)

/-- The user `User::new` builds for a negative initial balance: the register
path places no lower bound on the starting balance. -/
def negInitUser : User where
  id := none
  email := "neg@init.com"
  password_hash := hash_password "secret"
  firstname := "Neg"
  surname := "Init"
  balance := -1
  is_verified := false
  created_at := 0
  holdings := []

/-- Counterexample to C5 as stated: a sequence consisting of just
`User::new` with initial balance −1 (which the code accepts) already
violates `balance ≥ 0`, so the invariant does not hold after arbitrary
argument choices. -/
theorem C5_counterexample :
    User.new "neg@init.com" "secret" "Neg" "Init" (-1) 0 = Except.ok negInitUser
      ∧ ¬ UserInv negInitUser := by
  constructor
  · rfl
  · intro hinv
    have hbal := hinv.1
    norm_num [negInitUser] at hbal

/-- C5 (amended): after any sequence of deposit, withdraw, verify_email and
update_holding starting from a `User::new` user, the invariant
`balance ≥ 0 ∧ every holding has quantity ≥ 1` holds, provided the initial
balance is non-negative and every deposit amount is non-negative (the
caller-enforced preconditions the spec states). -/
theorem C5_ledger_invariant (email password firstname surname : String)
    (init : Rat) (now : Nat) (u0 : User) (ops : List UserOp)
    (hnew : User.new email password firstname surname init now = Except.ok u0)
    (hinit : 0 ≤ init)
    (hops : ∀ op ∈ ops, depositNonneg op) :
    UserInv (runOps u0 ops) := by
  have hu0 : UserInv u0 := by
    unfold User.new at hnew
    split at hnew
    · exact absurd hnew (by simp)
    · have := (Except.ok.injEq _ _).mp hnew
      subst this
      exact ⟨hinit, fun p hp => absurd hp (List.not_mem_nil p)⟩
  exact UserInv_runOps u0 ops hu0 hops

/-- The `User::new` -built user the C5 witness starts from. -/
def wNewUser : User where
  id := none
  email := "w@new.com"
  password_hash := hash_password "secret123"
  firstname := "A"
  surname := "B"
  balance := 5
  is_verified := false
  created_at := 0
  holdings := []

/-- The operation sequence exercised by the C5 witness. -/
def wOpsList : List UserOp :=
  [UserOp.deposit 3, UserOp.withdraw 2,
    UserOp.updateHolding "AAPL" 2 10 1, UserOp.verifyEmail,
    UserOp.updateHolding "AAPL" (-2) 0 2]

/-- Witness for the amended C5: the invariant holds after a concrete
sequence of all five operations. -/
theorem C5_ledger_invariant_witness : UserInv (runOps wNewUser wOpsList) := by
  refine C5_ledger_invariant "w@new.com" "secret123" "A" "B" 5 0 wNewUser
    wOpsList rfl (by norm_num) ?_
  intro op hop
  simp only [wOpsList, List.mem_cons, List.not_mem_nil, or_false] at hop
  rcases hop with rfl | rfl | rfl | rfl | rfl <;> norm_num [depositNonneg]

/-- An order with its status overwritten to Cancelled, as the delete
handler writes it back. -/
def cancelledForm (order : Order) : Order :=
  { order with status := OrderStatus.Cancelled }

/-- The cancelled form of the queued fixture order. -/
def wOrderCancelled : Order :=
  { wOrderQueued with status := OrderStatus.Cancelled }

/-- Counterexample to C8 as stated: cancelling a stored Queued order sets
its status directly to Cancelled — not to PendingCancel — and does not
re-enqueue the id (the queue stays empty). -/
theorem C8_counterexample :
    lookupStore (delete_order wStQueued 1).1.orders 1 = some wOrderCancelled
      ∧ (delete_order wStQueued 1).1.order_queue = []
      ∧ (delete_order wStQueued 1).2 = DeleteOutcome.cancelled wOrderCancelled
      ∧ wOrderCancelled.status ≠ OrderStatus.PendingCancel := by
  refine ⟨rfl, rfl, rfl, by decide⟩

/-- C8 (amended): `delete_order` on a stored order with a terminal status
returns cannot-cancel without mutating anything; on any non-terminal status
(Queued, Pending or PendingCancel) it overwrites the status directly to
Cancelled and writes the order back, leaving the work queue untouched (no
re-enqueue).  Separately, a worker step does finalize an order that is in
PendingCancel to Cancelled. -/
theorem C8_cancel_behaviour (st : SharedSt) (order_id r now : Nat)
    (order : Order) (hlook : lookupStore st.orders order_id = some order) :
    (order.status.isTerminal = true →
      delete_order st order_id = (st, DeleteOutcome.cantCancel))
    ∧ (order.status.isTerminal = false →
        delete_order st order_id
          = ({ st with orders := updateStore st.orders order_id (cancelledForm order) },
             DeleteOutcome.cancelled (cancelledForm order)))
    ∧ (order.status = OrderStatus.PendingCancel →
        lookupStore (process_order st order_id r now).orders order_id
          = some (cancelledForm order)) := by
  obtain ⟨cid, dt, sym, q, status, ot, osd⟩ := order
  refine ⟨?_, ?_, ?_⟩
  · intro hterm
    unfold delete_order
    rw [hlook]
    cases status with
    | Cancelled => rfl
    | Expired d => rfl
    | Filled d => rfl
    | Rejected d => rfl
    | Pending => simp [OrderStatus.isTerminal] at hterm
    | PendingCancel => simp [OrderStatus.isTerminal] at hterm
    | Queued => simp [OrderStatus.isTerminal] at hterm
  · intro hterm
    unfold delete_order
    rw [hlook]
    cases status with
    | Pending => rfl
    | PendingCancel => rfl
    | Queued => rfl
    | Cancelled => simp [OrderStatus.isTerminal] at hterm
    | Expired d => simp [OrderStatus.isTerminal] at hterm
    | Filled d => simp [OrderStatus.isTerminal] at hterm
    | Rejected d => simp [OrderStatus.isTerminal] at hterm
  · intro hpc
    subst hpc
    unfold process_order
    rw [hlook]
    exact lookupStore_updateStore_self st.orders order_id _

/-- Witness for the amended C8: cancelling the stored Queued order yields
the directly-Cancelled row and the cannot-cancel-free outcome. -/
theorem C8_cancel_behaviour_witness :
    delete_order wStQueued 1
      = ({ wStQueued with orders := updateStore wStQueued.orders 1 wOrderCancelled },
         DeleteOutcome.cancelled wOrderCancelled) :=
  (C8_cancel_behaviour wStQueued 1 0 0 wOrderQueued rfl).2.1 rfl
